import Mathlib

/-!
Shallow embedding of the adaptive company-benchmarking tool
(descriptions.py, feedback_processor.py, ai/prompt_builder.py,
scrapers/signal_extractor.py, retry_failed.py).

Strings are modelled as lists of characters (`Str`); Python string
operations (`lower`, `split`, `strip`, slicing, `in`, `join`) are given
faithful executable counterparts below.
-/

/-- Python strings, modelled as lists of characters. -/
abbrev Str := List Char

/-- Conversion from a Lean string literal to the model type. -/
def str (s : String) : Str := s.data

/-- The apostrophe character, U+0027. -/
def apos : Char := Char.ofNat 39

/-- A one-character string holding an apostrophe. -/
def aposS : Str := [apos]

/-- Python `s.lower()` (ASCII case folding, as `str.lower` on ASCII text). -/
def pyLower (s : Str) : Str := s.map Char.toLower

/-- Worker for `pySplit`: `acc` holds the reversed current token. -/
def pySplitAux : Str → Str → List Str
  | [], acc => if acc.isEmpty then [] else [acc.reverse]
  | c :: rest, acc =>
    if c.isWhitespace then
      if acc.isEmpty then pySplitAux rest [] else acc.reverse :: pySplitAux rest []
    else pySplitAux rest (c :: acc)

/-- Python `s.split()` with no argument: split on whitespace runs, dropping
empty tokens. -/
def pySplit (s : Str) : List Str := pySplitAux s []

/-- Python `s.strip()`: drop leading and trailing whitespace. -/
def pyStrip (s : Str) : Str :=
  ((s.dropWhile Char.isWhitespace).reverse.dropWhile Char.isWhitespace).reverse

/-- Does `s` start with `t`?  (Python `s.startswith(t)`.) -/
def strStarts : Str → Str → Bool
  | _, [] => true
  | [], _ :: _ => false
  | a :: s, b :: t => a == b && strStarts s t

/-- Python substring test `t in s`. -/
def containsStr : Str → Str → Bool
  | [], t => t.isEmpty
  | s@(_ :: rest), t => strStarts s t || containsStr rest t

/-- Python `sep.join(parts)`. -/
def joinSep (sep : Str) : List Str → Str
  | [] => []
  | [x] => x
  | x :: xs => x ++ sep ++ joinSep sep xs

/-- Decimal rendering of a natural number, for f-string interpolation. -/
def natToStr (n : Nat) : Str := (Nat.repr n).data

/-! ## Benchmark Identity Deriver
`extract_benchmark_name` (descriptions.py) and
`extract_benchmark_name_from_file` (feedback_processor.py). -/

/-- The fixed stop-word set shared by both benchmark-name extractors. -/
def stopWords : List Str :=
  [str "we", str "are", str "the", str "a", str "an", str "for", str "of",
   str "to", str "in", str "on", str "is", str "please", str "write",
   str "analyzing", str "looking", str "describe", str "description"]

/-- The tokens of the instruction text that survive the stop-word and
length filters: first 20 whitespace tokens of the lowercased text, keeping
those not in `stopWords` and of length > 2. -/
def qualifyingTokens (instructions : Str) : List Str :=
  ((pySplit (pyLower instructions)).take 20).filter
    (fun w => !stopWords.contains w && decide (w.length > 2))

/-- `extract_benchmark_name` from descriptions.py: join the first 3
qualifying tokens with underscores, or return `"general"` when none
qualify. -/
def extract_benchmark_name (instructions : Str) : Str :=
  let key_words := qualifyingTokens instructions
  if key_words.isEmpty then str "general"
  else joinSep (str "_") (key_words.take 3)

/-- `extract_benchmark_name_from_file` from feedback_processor.py, applied
to the contents of an existing instructions file: the same pipeline run on
the raw (unmodified) file content. -/
def extract_benchmark_name_from_file (content : Str) : Str :=
  let words := (pySplit (pyLower content)).take 20
  let key_words := words.filter
    (fun w => !stopWords.contains w && decide (w.length > 2))
  if key_words.isEmpty then str "general"
  else joinSep (str "_") (key_words.take 3)

/-! ## load_instructions (descriptions.py)
The generation run removes the `VISUAL_CHECK:` line(s) via
`re.sub(r"VISUAL_CHECK:\s*.+?(?:\n|$)", "", content, flags=IGNORECASE)`
and then strips the result.  The removal is modelled below, including the
backtracking semantics of `\s*.+?(?:\n|$)`. -/

/-- The literal part of the visual-check regex, lowercased. -/
def vcLit : Str := str "visual_check:"

/-- Length of the maximal whitespace prefix (candidate `\s*` consumption). -/
def wsPrefixLen (t : Str) : Nat := (t.takeWhile Char.isWhitespace).length

/-- Given `u` nonempty with a non-newline head, how many characters
`.+?(?:\n|$)` consumes: lazily up to and including the first newline, or
to the end of the string. -/
def consumeLine (u : Str) : Nat :=
  match u.findIdx? (· == '\n') with
  | some i => i + 1
  | none => u.length

/-- Try to match `.+?(?:\n|$)` at offset `k` into `t`. -/
def vcTailAt (t : Str) (k : Nat) : Option Nat :=
  match t.drop k with
  | [] => none
  | c :: rest => if c == '\n' then none else some (k + consumeLine (c :: rest))

/-- Greedy `\s*` with backtracking: try offsets `k, k-1, …, 0`. -/
def vcTailSearch (t : Str) : Nat → Option Nat
  | 0 => vcTailAt t 0
  | k + 1 =>
    match vcTailAt t (k + 1) with
    | some n => some n
    | none => vcTailSearch t k

/-- Match `\s*.+?(?:\n|$)` at the start of `t`, returning the number of
characters consumed. -/
def matchVCTail (t : Str) : Option Nat := vcTailSearch t (wsPrefixLen t)

/-- Fuelled worker for the regex substitution (fuel bounds the recursion;
`s.length` fuel always suffices since every step drops at least one
character). -/
def vcSubGo : Nat → Str → Str
  | 0, s => s
  | _ + 1, [] => []
  | fuel + 1, c :: rest =>
    if strStarts (pyLower (c :: rest)) vcLit then
      match matchVCTail ((c :: rest).drop vcLit.length) with
      | some n => vcSubGo fuel ((c :: rest).drop (vcLit.length + n))
      | none => c :: vcSubGo fuel rest
    else c :: vcSubGo fuel rest

/-- `re.sub(r"VISUAL_CHECK:\s*.+?(?:\n|$)", "", content, flags=IGNORECASE)`. -/
def vcSub (s : Str) : Str := vcSubGo s.length s

/-- The main-instruction string produced by `load_instructions` for a
file with the given content: visual-check lines removed, then stripped.
(When the regex does not match, the substitution is the identity, which
also covers the no-search-hit branch of the Python code.) -/
def load_instructions_content (content : Str) : Str := pyStrip (vcSub content)

/-! ## Feedback Loop (feedback_processor.py, process_feedback) -/

/-- A persisted training example (schema of `training_record`). -/
structure TrainingExample where
  benchmark_context : Str
  url : Str
  html_snippet : Str
  ai_description : Str
  human_description : Str
  timestamp : Str
deriving Repr, DecidableEq

/-- A feedback-log record: the training-example fields plus the generated
discrepancy summary. -/
structure FeedbackRecord where
  benchmark_context : Str
  url : Str
  html_snippet : Str
  ai_description : Str
  human_description : Str
  timestamp : Str
  discrepancy : Str
deriving Repr, DecidableEq

/-- One spreadsheet row as read by the feedback processor; `correction`
is `none` when the `Your_Correction` cell is missing (NaN). -/
structure Row where
  url : Str
  ai_description : Str
  correction : Option Str
  html_snippet : Str
deriving Repr, DecidableEq

/-- Selection `df["Your_Correction"].notna() & (df["Your_Correction"] != "")`. -/
def isCorrectionRow (r : Row) : Bool :=
  match r.correction with
  | some c => !c.isEmpty
  | none => false

/-- The rows with a present, non-empty correction, in sheet order. -/
def correctionRows (rows : List Row) : List Row := rows.filter isCorrectionRow

/-- The generated discrepancy string: `AI said:` then the first 100
characters of the AI text, `vs Human said:` then the first 100 characters
of the human text, each wrapped in apostrophes plus `...`. -/
def mkDiscrepancy (ai hu : Str) : Str :=
  str "AI said: " ++ aposS ++ ai.take 100 ++ str "..." ++ aposS ++
  str " vs Human said: " ++ aposS ++ hu.take 100 ++ str "..." ++ aposS

/-- The duplicate test used before appending to the training store:
exact match on both `url` and `benchmark_context`. -/
def dupMatch (u ctx : Str) (t : TrainingExample) : Bool :=
  t.url == u && t.benchmark_context == ctx

/-- The state threaded through the correction loop: training store,
feedback log, and the `new_examples` counter. -/
structure FeedbackState where
  training : List TrainingExample
  flog : List FeedbackRecord
  new_examples : Nat
deriving Repr, DecidableEq

/-- The per-correction loop of `process_feedback` (step 6).  `ctx` is the
current instructions text (already stripped by the caller), `now` supplies
the wall-clock timestamp for the i-th processed correction. -/
def processCorrections (ctx : Str) (now : Nat → Str) :
    List Row → Nat → List TrainingExample → List FeedbackRecord → Nat → FeedbackState
  | [], _, td, fl, n => ⟨td, fl, n⟩
  | r :: rest, i, td, fl, n =>
    if pyStrip r.ai_description == pyStrip (r.correction.getD []) then
      processCorrections ctx now rest i td fl n
    else
      let tr : TrainingExample :=
        { benchmark_context := ctx.take 200
          url := r.url
          html_snippet := r.html_snippet
          ai_description := r.ai_description
          human_description := r.correction.getD []
          timestamp := now i }
      let isDup := td.any (dupMatch r.url (ctx.take 200))
      let fr : FeedbackRecord :=
        { benchmark_context := tr.benchmark_context
          url := tr.url
          html_snippet := tr.html_snippet
          ai_description := tr.ai_description
          human_description := tr.human_description
          timestamp := tr.timestamp
          discrepancy := mkDiscrepancy r.ai_description (r.correction.getD []) }
      processCorrections ctx now rest (i + 1)
        (if isDup then td else td ++ [tr]) (fl ++ [fr])
        (if isDup then n else n + 1)

/-- `process_feedback` on given stores and rows: filter the correction
rows, then run the loop with a fresh `new_examples` counter. -/
def process_feedback (instructions : Str) (now : Nat → Str)
    (training0 : List TrainingExample) (log0 : List FeedbackRecord)
    (rows : List Row) : FeedbackState :=
  processCorrections instructions now (correctionRows rows) 0 training0 log0 0

/-! ## Prompt Composer (ai/prompt_builder.py) -/

/-- The scraped website data consumed by the prompt builder
(`text_content`, `nav_links`, `meta_description`, `error`). -/
structure WebsiteData where
  text_content : Str
  nav_links : List Str
  meta_description : Str
  error : Option Str
deriving Repr, DecidableEq

/-- A global mistake pattern. -/
structure MistakePattern where
  pattern : Str
  wrong_conclusion : Str
  correct_conclusion : Str
deriving Repr, DecidableEq

/-- The UI signals produced by the signal extractor. -/
structure UISignals where
  has_shopping_cart : Bool
  has_job_board : Bool
  detected_elements : List Str
  custom_check_result : Str
deriving Repr, DecidableEq

/-- One numbered reference-example block of the prompt. -/
def exampleBlock (i : Nat) (ex : TrainingExample) : Str :=
  str "\n--- Example " ++ natToStr i ++ str " ---\nInstructions Used: " ++
  ex.benchmark_context ++ str "\nWebsite Snippet: \"" ++ ex.html_snippet.take 150 ++
  str "...\"\nCorrect Output: " ++ ex.human_description ++
  str "\n--- End Example " ++ natToStr i ++ str " ---\n"

/-- The reference-examples section: empty when the list is empty,
otherwise header plus one block per example, numbered from 1. -/
def examplesSection (training_examples : List TrainingExample) : Str :=
  if training_examples.isEmpty then []
  else
    training_examples.enum.foldl (fun acc p => acc ++ exampleBlock (p.1 + 1) p.2)
      (str "REFERENCE EXAMPLES (Match this writing style and analysis depth):\n")

/-- One mistake-avoidance block of the prompt. -/
def mistakeBlock (p : MistakePattern) : Str :=
  str "\n- Pattern: \"" ++ p.pattern ++ str "\"\n  WRONG conclusion: " ++
  p.wrong_conclusion ++ str "\n  CORRECT conclusion: " ++ p.correct_conclusion ++
  str "\n"

/-- The mistake-avoidance section: empty when the list is empty. -/
def mistakesSection (mistake_patterns : List MistakePattern) : Str :=
  if mistake_patterns.isEmpty then []
  else
    mistake_patterns.foldl (fun acc p => acc ++ mistakeBlock p)
      (str "\nâš ï¸ COMMON MISTAKES TO AVOID:\n")

/-- The fixed relevance-keyword set for navigation-link filtering. -/
def relevantKeywords : List Str :=
  [str "r&d", str "research", str "product", str "service", str "about",
   str "shop", str "store", str "career", str "contact", str "solution",
   str "manufacture", str "develop", str "wholesale", str "retail"]

/-- Does a navigation link contain any relevance keyword
(case-insensitive substring match)? -/
def hasRelevantKw (link : Str) : Bool :=
  relevantKeywords.any (fun kw => containsStr (pyLower link) kw)

/-- `build_signals_section`: filtered navigation links (first 30 scanned,
capped at 15), meta description, and UI-signal lines, joined by newlines. -/
def build_signals_section (wd : WebsiteData) (ui : Option UISignals) : Str :=
  let s1 : List Str :=
    if !wd.nav_links.isEmpty then
      let filtered_links := (wd.nav_links.take 30).filter hasRelevantKw
      if !filtered_links.isEmpty then
        [str "NAVIGATION LINKS DETECTED: " ++
          joinSep (str ", ") (filtered_links.take 15)]
      else []
    else []
  let s2 : List Str := s1 ++
    (if !wd.meta_description.isEmpty then
      [str "META DESCRIPTION: " ++ wd.meta_description] else [])
  let s3 : List Str := s2 ++
    (match ui with
     | none => []
     | some u =>
       (if u.has_shopping_cart then
          [str "âš¡ RETAIL INDICATOR: Shopping cart/e-commerce elements detected"]
        else []) ++
       (if u.has_job_board then
          [str "ðŸ“‹ CAREERS SECTION: Job board/hiring page detected"]
        else []) ++
       (if !u.detected_elements.isEmpty then
          [str "UI ELEMENTS: " ++ joinSep (str ", ") (u.detected_elements.take 5)]
        else []))
  if s3.isEmpty then [] else joinSep (str "\n") s3

/-- The visual-check block of the prompt. -/
def visualSection (visual_check : Str) (ui : Option UISignals) : Str :=
  if !(pyStrip visual_check).isEmpty then
    str "\nVISUAL CHECK REQUESTED:\n" ++ visual_check ++ str "\n" ++
    (match ui with
     | some u =>
       if !u.custom_check_result.isEmpty then
         str "Detection Result: " ++ u.custom_check_result ++ str "\n"
       else []
     | none => [])
  else []

/-- `build_prompt`: the complete prompt assembled from the fixed template
and the computed sections. -/
def build_prompt (wd : WebsiteData) (instructions visual_check : Str)
    (training_examples : List TrainingExample)
    (mistake_patterns : List MistakePattern) (ui : Option UISignals) : Str :=
  str "ROLE:\nYou are an expert business analyst specializing in company benchmarking studies.\n\nTHE MISSION (Instructions for this benchmark):\n" ++
  instructions ++ str "\n" ++ visualSection visual_check ui ++ str "\n" ++
  examplesSection training_examples ++ str "\n" ++
  mistakesSection mistake_patterns ++
  str "\n--------------------------------------------------\n\nCURRENT TASK:\nAnalyze the website content below and strictly follow " ++
  aposS ++ str "The Mission" ++ aposS ++ str ".\n\n" ++
  build_signals_section wd ui ++ str "\n\nWEBSITE TEXT CONTENT:\n" ++
  wd.text_content ++
  str "\n\nOUTPUT:\nProvide your analysis following the mission instructions exactly.\n"

/-! ## Signal Extractor (scrapers/signal_extractor.py) -/

/-- A markup element of the parsed page: tag name and the attributes the
extractor inspects. -/
structure Element where
  tag : Str
  classAttr : Option Str
  idAttr : Option Str
  hrefAttr : Option Str
deriving Repr, DecidableEq

/-- The parsed page structure: its elements, its text nodes, and the
string renderings of its form elements (used by the custom visual check). -/
structure Page where
  elements : List Element
  texts : List Str
  forms : List Str
deriving Repr, DecidableEq

/-- `soup.find_all(class_=lambda x: x and pattern in x.lower())` membership
test for one element. -/
def classMatches (p : Str) (e : Element) : Bool :=
  match e.classAttr with
  | some x => containsStr (pyLower x) p
  | none => false

/-- `soup.find_all(id=lambda x: x and pattern in x.lower())` membership
test for one element. -/
def idMatches (p : Str) (e : Element) : Bool :=
  match e.idAttr with
  | some x => containsStr (pyLower x) p
  | none => false

/-- Icon test: an `i`, `span` or `svg` element whose class contains the
pattern. -/
def iconMatches (p : Str) (e : Element) : Bool :=
  (e.tag == str "i" || e.tag == str "span" || e.tag == str "svg") &&
  classMatches p e

/-- The fixed ordered shopping-cart pattern list. -/
def cartPatterns : List Str :=
  [str "cart", str "basket", str "shopping-cart", str "shopping_cart",
   str "add-to-cart", str "addtocart", str "buy-now", str "checkout",
   str "shop", str "store", str "e-commerce", str "ecommerce"]

/-- The shopping-cart scan: per pattern, test classes, then ids, then
icons; the first hit stops the search and records one note. -/
def cartScanGo (els : List Element) : List Str → Bool × List Str
  | [] => (false, [])
  | p :: ps =>
    if els.any (classMatches p) then (true, [str "cart-indicator: " ++ p])
    else if els.any (idMatches p) then (true, [str "cart-id: " ++ p])
    else if els.any (iconMatches p) then (true, [str "cart-icon: " ++ p])
    else cartScanGo els ps

/-- The fixed ordered job-board pattern list. -/
def jobPatterns : List Str :=
  [str "careers", str "jobs", str "vacancies", str "hiring",
   str "join-us", str "join-our-team"]

/-- Anchor test: an `a` element whose `href` contains the pattern. -/
def hrefMatches (p : Str) (e : Element) : Bool :=
  e.tag == str "a" &&
  (match e.hrefAttr with
   | some x => containsStr (pyLower x) p
   | none => false)

/-- `pattern.replace("-", " ")`. -/
def hyphenToSpace (p : Str) : Str := p.map (fun c => if c == '-' then ' ' else c)

/-- Text-node test: the node contains the pattern with hyphens replaced by
spaces (case-insensitively). -/
def textMatches (p : Str) (t : Str) : Bool :=
  containsStr (pyLower t) (hyphenToSpace p)

/-- The job-board scan: per pattern, test anchor hrefs, then text nodes;
first hit stops the search. -/
def jobScanGo (pg : Page) : List Str → Bool × List Str
  | [] => (false, [])
  | p :: ps =>
    if pg.elements.any (hrefMatches p) then (true, [str "job-board: " ++ p])
    else if pg.texts.any (textMatches p) then (true, [str "job-mention: " ++ p])
    else jobScanGo pg ps

/-- `process_custom_visual_check`: heuristic keyword interpreter for the
visual-check directive. -/
def process_custom_visual_check (pg : Page) (instruction : Str) : Str :=
  let il := pyLower instruction
  let f1 : List Str :=
    if containsStr il (str "shopping cart") || containsStr il (str "cart icon") then
      [if pg.elements.any (classMatches (str "cart")) then
         str "Shopping cart element detected"
       else str "No shopping cart element found"]
    else []
  let f2 : List Str :=
    if containsStr il (str "contact form") then
      [if !(pg.forms.filter (fun f =>
              containsStr (pyLower f) (str "contact") ||
              containsStr (pyLower f) (str "message"))).isEmpty then
         str "Contact form detected"
       else str "No contact form found"]
    else []
  let f3 : List Str :=
    if containsStr il (str "product") && containsStr il (str "page") then
      [if pg.elements.any (classMatches (str "product")) then
         str "Product pages detected"
       else str "No product page indicators found"]
    else []
  let findings := f1 ++ f2 ++ f3
  if findings.isEmpty then str "Custom check performed, no specific findings"
  else joinSep (str "; ") findings

/-- `extract_ui_signals`: the cart scan, the job scan (cart notes first),
and the optional custom visual check. -/
def extract_ui_signals (pg : Page) (visual_check : Str) : UISignals :=
  let cart := cartScanGo pg.elements cartPatterns
  let job := jobScanGo pg jobPatterns
  { has_shopping_cart := cart.1
    has_job_board := job.1
    detected_elements := cart.2 ++ job.2
    custom_check_result :=
      if !(pyStrip visual_check).isEmpty then
        process_custom_visual_check pg visual_check
      else [] }

/-! ## generate_ai_description (descriptions.py) and retry selection
(retry_failed.py) -/

/-- The fixed failure sentinel (The Company + apostrophe +
`s website does not work`). -/
def noWorkMsg : Str := str "The Company" ++ aposS ++ str "s website does not work"

/-- Python truthiness of `website_data.get("error")`: present and
non-empty. -/
def errTruthy (wd : WebsiteData) : Bool :=
  match wd.error with
  | some e => !e.isEmpty
  | none => false

/-- `generate_ai_description`: the sentinel when no model is configured or
the scrape failed; otherwise the (possibly failing) model call on the
built prompt.  The generative model is an abstract function from prompts
to a result or a raised-exception message. -/
def generate_ai_description (model : Option (Str → Except Str Str))
    (wd : WebsiteData) (ui : UISignals) (instructions visual_check : Str)
    (training_examples : List TrainingExample)
    (mistake_patterns : List MistakePattern) : Str :=
  match model with
  | none => noWorkMsg
  | some m =>
    if errTruthy wd then noWorkMsg
    else
      match m (build_prompt wd instructions visual_check training_examples
                 mistake_patterns (some ui)) with
      | .ok t => pyStrip t
      | .error e => str "AI Generation Error: " ++ e

/-- An output-sheet row as read back by `retry_failed`. -/
structure OutRow where
  url : Str
  ai_description : Str
deriving Repr, DecidableEq

/-- The failed-row selection of `retry_failed`: the indices of the rows
whose `AI_Description` column equals the failure sentinel exactly. -/
def failed_indices (rows : List OutRow) : List Nat :=
  ((rows.enum).filter (fun p => p.2.ai_description == noWorkMsg)).map
    (fun p => p.1)

/-! ## Specification-side definition for the Benchmark Identity Deriver
(written from the spec text of section 4.1, to be compared with
`extract_benchmark_name`). -/

/-- Spec wording: lowercase, split on whitespace, take the first 20
tokens, drop tokens in the fixed stop-word set or with length ≤ 2, keep
the first 3 surviving tokens in original order, join with `_`; if zero
survive, output the sentinel `"general"`. -/
def benchmarkIdentitySpec (instructions : Str) : Str :=
  let tokens := (pySplit (pyLower instructions)).take 20
  let surviving := tokens.filter (fun w => decide (w ∉ stopWords) && decide (2 < w.length))
  if surviving = [] then str "general"
  else joinSep (str "_") (surviving.take 3)

/-! ## Substring-spanning infrastructure
Used to show that a needle absent from every part of a concatenation is
absent from the concatenation, given boundary conditions. -/

/-- Does `a` end with `x`? -/
def strEnds (a x : Str) : Bool := strStarts a.reverse x.reverse

/-- `noSpanLeft a t`: no split `t = t₁ ++ t₂` with both parts nonempty has
`t₁` a suffix of `a`; hence no occurrence of `t` can start inside `a` and
spill over its right end. -/
def noSpanLeft (a t : Str) : Bool :=
  (List.range t.length).all (fun k => decide (k = 0) || !(strEnds a (t.take k)))

/-- `noSpanRight b t`: no split `t = t₁ ++ t₂` with both parts nonempty
has `t₂` a prefix of `b`; hence no occurrence of `t` can end inside `b`
after starting to its left. -/
def noSpanRight (b t : Str) : Bool :=
  (List.range t.length).all (fun k => decide (k = 0) || !(strStarts b (t.drop k)))

/-- The custom-check result carried by an optional UI-signal value. -/
def uiCcr : Option UISignals → Str
  | some u => u.custom_check_result
  | none => []

/-- The detected elements carried by an optional UI-signal value. -/
def uiDet : Option UISignals → List Str
  | some u => u.detected_elements
  | none => []

/-! ## Fixed pieces of the prompt template, named for the boundary
analysis of the assembled prompt. -/

/-- Fixed retail-indicator line of the signals section. -/
def retailLine : Str :=
  str "âš¡ RETAIL INDICATOR: Shopping cart/e-commerce elements detected"

/-- Fixed careers line of the signals section. -/
def careersLine : Str := str "ðŸ“‹ CAREERS SECTION: Job board/hiring page detected"

/-- Line prefix of the navigation-links line. -/
def navLead : Str := str "NAVIGATION LINKS DETECTED: "

/-- Line prefix of the meta-description line. -/
def metaLead : Str := str "META DESCRIPTION: "

/-- Line prefix of the detected-UI-elements line. -/
def uiLead : Str := str "UI ELEMENTS: "

/-- Line prefix of the visual-check detection result. -/
def detLead : Str := str "Detection Result: "

/-- The two section headers of the empty-list claim. -/
def c7Needles : List Str := [str "REFERENCE EXAMPLES", str "COMMON MISTAKES"]

/-! ## Concrete inputs used by witnesses and counterexamples. -/

/-- The end-to-end scenario instruction string of the spec. -/
def cInstr : Str :=
  str "We are analyzing retail e-commerce companies for market research"

/-- An instructions file carrying a `VISUAL_CHECK:` line. -/
def c2content : Str := str "VISUAL_CHECK: cart icon\nRetail companies analysis today"

/-- The same instructions without the visual-check line. -/
def c2plain : Str := str "Retail companies analysis today"

/-- Website data with all fields empty. -/
def cWdEmpty : WebsiteData :=
  { text_content := [], nav_links := [], meta_description := [], error := none }

/-- 40 navigation links with exactly 3 keyword hits, one of them past
index 30. -/
def c8NavBad : List Str :=
  [str "about", str "shop"] ++ List.replicate 33 (str "xx") ++
  [str "contact"] ++ List.replicate 4 (str "xx")

/-- Website data around `c8NavBad`. -/
def c8WdBad : WebsiteData :=
  { text_content := [], nav_links := c8NavBad, meta_description := [], error := none }

/-- 40 navigation links with exactly 3 keyword hits, all within the first
30 entries. -/
def c8NavGood : List Str :=
  [str "about", str "shop", str "contact"] ++ List.replicate 37 (str "zz")

/-- An element whose class attribute is `"add-to-cart-btn"`. -/
def c9Elem : Element :=
  { tag := str "div", classAttr := some (str "add-to-cart-btn"),
    idAttr := none, hrefAttr := none }

/-- A page containing only that element. -/
def c9PageEx : Page := { elements := [c9Elem], texts := [], forms := [] }

/-- A correction row whose correction differs from the AI text. -/
def cRow1 : Row :=
  { url := str "a.com", ai_description := str "desc one",
    correction := some (str "better one"), html_snippet := str "snip1" }

/-- A second correction row for the same URL, also differing. -/
def cRow2 : Row :=
  { url := str "a.com", ai_description := str "desc two",
    correction := some (str "better two"), html_snippet := str "snip2" }

/-- A correction row whose trimmed correction equals the trimmed AI
text. -/
def cRowSkip : Row :=
  { url := str "b.com", ai_description := str " same ",
    correction := some (str "same"), html_snippet := str "snip3" }

/-- A constant clock for concrete runs. -/
def cNow : Nat → Str := fun _ => str "t0"

/-- Website data carrying a scrape error. -/
def cWdErr : WebsiteData :=
  { text_content := [], nav_links := [], meta_description := [],
    error := some (str "Scraping Error: x") }

/-- The all-false UI-signal value used by the main loop when no visual
check runs. -/
def cUi0 : UISignals :=
  { has_shopping_cart := false, has_job_board := false,
    detected_elements := [], custom_check_result := [] }

/-- A two-row output sheet: one failed row, one successful row. -/
def cOutRows : List OutRow :=
  [{ url := str "a.com", ai_description := noWorkMsg },
   { url := str "b.com", ai_description := str "A nice company." }]

/-! # Theorems -/

/-! ## Basic lemmas about the string model -/

theorem containsStr_nil_needle (s : Str) : containsStr s [] = true := by
  cases s <;> simp [containsStr, strStarts]

theorem containsStr_nil_of_ne (t : Str) (h : t ≠ []) : containsStr [] t = false := by
  cases t with
  | nil => exact absurd rfl h
  | cons c u => simp [containsStr]

theorem strStarts_iff (s t : Str) : strStarts s t = true ↔ ∃ r, s = t ++ r := by
  induction t generalizing s with
  | nil => simp [strStarts]
  | cons b t ih =>
    cases s with
    | nil => simp [strStarts]
    | cons a s =>
      simp only [strStarts, Bool.and_eq_true, beq_iff_eq, ih, List.cons_append,
        List.cons.injEq]
      constructor
      · rintro ⟨hab, r, rfl⟩; exact ⟨r, hab, rfl⟩
      · rintro ⟨r, h1, h2⟩; exact ⟨h1, r, h2⟩

theorem strStarts_append_cases {x b t : Str} (h : strStarts (x ++ b) t = true) :
    strStarts x t = true ∨ ∃ t₂, t = x ++ t₂ ∧ t₂ ≠ [] ∧ strStarts b t₂ = true := by
  obtain ⟨r, hr⟩ := (strStarts_iff _ _).mp h
  rcases List.append_eq_append_iff.mp hr with ⟨m, hm1, hm2⟩ | ⟨m, hm1, hm2⟩
  · cases hme : m with
    | nil => left; exact (strStarts_iff _ _).mpr ⟨[], by rw [hm1, hme]; simp⟩
    | cons d u =>
      right
      exact ⟨m, hm1, by rw [hme]; exact List.cons_ne_nil d u,
        (strStarts_iff _ _).mpr ⟨r, hm2⟩⟩
  · left; exact (strStarts_iff _ _).mpr ⟨m, hm1⟩

theorem containsStr_of_starts {s t : Str} (h : strStarts s t = true) :
    containsStr s t = true := by
  cases s with
  | nil =>
    cases t with
    | nil => rfl
    | cons b u => simp [strStarts] at h
  | cons a s => simp [containsStr, h]

theorem containsStr_append_cases {a b t : Str} (h : containsStr (a ++ b) t = true) :
    containsStr a t = true ∨ containsStr b t = true ∨
    ∃ t₁ t₂ a₁, t = t₁ ++ t₂ ∧ t₁ ≠ [] ∧ t₂ ≠ [] ∧ a = a₁ ++ t₁ ∧
      strStarts b t₂ = true := by
  induction a with
  | nil => right; left; simpa using h
  | cons c a ih =>
    have h2 : strStarts (c :: (a ++ b)) t = true ∨ containsStr (a ++ b) t = true := by
      simpa [containsStr, Bool.or_eq_true] using h
    rcases h2 with h2 | h2
    · rcases strStarts_append_cases (x := c :: a) (b := b) (t := t) h2 with
        h3 | ⟨t₂, ht, hne, hb⟩
      · left; exact containsStr_of_starts h3
      · right; right
        exact ⟨c :: a, t₂, [], ht, List.cons_ne_nil c a, hne, rfl, hb⟩
    · rcases ih h2 with h3 | h3 | ⟨t₁, t₂, a₁, h4, h5, h6, h7, h8⟩
      · left; simp [containsStr, h3]
      · right; left; exact h3
      · right; right
        exact ⟨t₁, t₂, c :: a₁, h4, h5, h6, by rw [h7]; rfl, h8⟩

theorem containsStr_append_cons {a b t : Str} {c : Char} (hc : c ∉ t)
    (ha : containsStr a t = false) (hb : containsStr b t = false) :
    containsStr (a ++ c :: b) t = false := by
  cases hB : containsStr (a ++ c :: b) t with
  | false => rfl
  | true =>
    exfalso
    rcases containsStr_append_cases hB with h1 | h1 | ⟨t₁, t₂, a₁, h2, h3, h4, h5, h6⟩
    · rw [ha] at h1; exact Bool.false_ne_true h1
    · have h2 : strStarts (c :: b) t = true ∨ containsStr b t = true := by
        simpa [containsStr, Bool.or_eq_true] using h1
      rcases h2 with h2 | h2
      · cases t with
        | nil => rw [containsStr_nil_needle] at ha; exact absurd ha (by decide)
        | cons d t' =>
          have hcd : c = d := by
            have := (by simpa [strStarts, Bool.and_eq_true] using h2 :
              (c = d) ∧ strStarts b t' = true)
            exact this.1
          exact hc (hcd ▸ List.mem_cons_self d t')
      · rw [hb] at h2; exact Bool.false_ne_true h2
    · cases t₂ with
      | nil => exact h4 rfl
      | cons d t₂ =>
        have hcd : c = d := by
          have := (by simpa [strStarts, Bool.and_eq_true] using h6 :
            (c = d) ∧ strStarts b t₂ = true)
          exact this.1
        apply hc
        rw [h2, hcd]
        exact List.mem_append_right _ (List.mem_cons_self d t₂)

theorem containsStr_cons_false {x t : Str} {c : Char} (htne : t ≠ [])
    (hh : strStarts t [c] = false) (hx : containsStr x t = false) :
    containsStr (c :: x) t = false := by
  cases t with
  | nil => exact absurd rfl htne
  | cons d t' =>
    have hcd : (d = c) = False := by
      simpa [strStarts] using hh
    have hcd2 : (c == d) = false := by
      simp [beq_eq_false_iff_ne]
      intro h; rw [h] at hcd; simp at hcd
    simp [containsStr, strStarts, hcd2, hx]

theorem strStarts_singleton_false {t : Str} {c : Char} (hc : c ∉ t) :
    strStarts t [c] = false := by
  cases t with
  | nil => rfl
  | cons d t' =>
    have : (d = c) = False := by
      simp; intro h; exact hc (h ▸ List.mem_cons_self d t')
    simp [strStarts, this]

theorem strEnds_iff {a x : Str} : strEnds a x = true ↔ ∃ a₁, a = a₁ ++ x := by
  unfold strEnds
  rw [strStarts_iff]
  constructor
  · rintro ⟨r, hr⟩
    refine ⟨r.reverse, ?_⟩
    have h2 := congrArg List.reverse hr
    simpa [List.reverse_append] using h2
  · rintro ⟨a₁, rfl⟩
    exact ⟨a₁.reverse, by simp [List.reverse_append]⟩

theorem containsStr_append_noSpan {a b t : Str} (hn : noSpanLeft a t = true)
    (ha : containsStr a t = false) (hb : containsStr b t = false) :
    containsStr (a ++ b) t = false := by
  cases hB : containsStr (a ++ b) t with
  | false => rfl
  | true =>
    exfalso
    rcases containsStr_append_cases hB with h1 | h1 | ⟨t₁, t₂, a₁, h2, h3, h4, h5, h6⟩
    · rw [ha] at h1; exact Bool.false_ne_true h1
    · rw [hb] at h1; exact Bool.false_ne_true h1
    · have hk : t₁.length < t.length := by
        rw [h2, List.length_append]
        have h7 : 0 < t₂.length := List.length_pos.mpr h4
        omega
      have hk0 : ¬ (t₁.length = 0) := by
        simpa [List.length_eq_zero] using h3
      have htake : t.take t₁.length = t₁ := by
        rw [h2]; exact List.take_left t₁ t₂
      have hall := (List.all_eq_true.mp hn) t₁.length (List.mem_range.mpr hk)
      rw [htake] at hall
      have hend : strEnds a t₁ = true := strEnds_iff.mpr ⟨a₁, h5⟩
      simp [hk0, hend] at hall

theorem containsStr_joinSep_nl {t : Str} (htne : t ≠ []) (hnl : '\n' ∉ t) :
    ∀ parts : List Str, (∀ s ∈ parts, containsStr s t = false) →
      containsStr (joinSep (str "\n") parts) t = false := by
  intro parts
  induction parts with
  | nil => intro _; simpa [joinSep] using containsStr_nil_of_ne t htne
  | cons x xs ih =>
    intro hp
    cases xs with
    | nil => simpa [joinSep] using hp x (by simp)
    | cons y ys =>
      have hxt : joinSep (str "\n") (x :: y :: ys) =
          x ++ '\n' :: joinSep (str "\n") (y :: ys) := by
        have h1 : joinSep (str "\n") (x :: y :: ys) =
            x ++ str "\n" ++ joinSep (str "\n") (y :: ys) := rfl
        rw [h1, List.append_assoc]; rfl
      rw [hxt]
      exact containsStr_append_cons hnl (hp x (by simp))
        (ih fun s hs => hp s (List.mem_cons_of_mem x hs))

theorem containsStr_joinSep_comma {t : Str} (htne : t ≠ []) (hcm : ',' ∉ t)
    (hsp : strStarts t (str " ") = false) :
    ∀ parts : List Str, (∀ s ∈ parts, containsStr s t = false) →
      containsStr (joinSep (str ", ") parts) t = false := by
  intro parts
  induction parts with
  | nil => intro _; simpa [joinSep] using containsStr_nil_of_ne t htne
  | cons x xs ih =>
    intro hp
    cases xs with
    | nil => simpa [joinSep] using hp x (by simp)
    | cons y ys =>
      have hxt : joinSep (str ", ") (x :: y :: ys) =
          x ++ ',' :: ' ' :: joinSep (str ", ") (y :: ys) := by
        have h1 : joinSep (str ", ") (x :: y :: ys) =
            x ++ str ", " ++ joinSep (str ", ") (y :: ys) := rfl
        rw [h1, List.append_assoc]; rfl
      rw [hxt]
      refine containsStr_append_cons hcm (hp x (by simp)) ?_
      exact containsStr_cons_false htne hsp
        (ih fun s hs => hp s (List.mem_cons_of_mem x hs))

theorem containsStr_append_endNl {a b t : Str} (hend : ∃ a2, a = a2 ++ ['\n'])
    (hnl : '\n' ∉ t) (ha : containsStr a t = false)
    (hb : containsStr b t = false) : containsStr (a ++ b) t = false := by
  cases hB : containsStr (a ++ b) t with
  | false => rfl
  | true =>
    exfalso
    rcases containsStr_append_cases hB with h1 | h1 | ⟨t₁, t₂, a₁, h2, h3, h4, h5, h6⟩
    · rw [ha] at h1; exact Bool.false_ne_true h1
    · rw [hb] at h1; exact Bool.false_ne_true h1
    · obtain ⟨a2, ha2⟩ := hend
      have hrev : t₁.reverse ++ a₁.reverse = '\n' :: a2.reverse := by
        have h7 : a₁ ++ t₁ = a2 ++ ['\n'] := h5.symm.trans ha2
        have h8 := congrArg List.reverse h7
        simpa [List.reverse_append] using h8
      cases hrt : t₁.reverse with
      | nil =>
        have : t₁ = [] := by simpa using congrArg List.reverse hrt
        exact h3 this
      | cons c u =>
        have hc : c = '\n' := by
          rw [hrt] at hrev
          exact (List.cons.injEq _ _ _ _ ▸ hrev).1
        have hmem : c ∈ t₁ := by
          rw [← List.mem_reverse, hrt]; exact List.mem_cons_self c u
        exact hnl (by rw [← hc, h2]; exact List.mem_append_left t₂ hmem)

theorem containsStr_append_noSpanRight {a b t : Str}
    (hn : noSpanRight b t = true) (ha : containsStr a t = false)
    (hb : containsStr b t = false) : containsStr (a ++ b) t = false := by
  cases hB : containsStr (a ++ b) t with
  | false => rfl
  | true =>
    exfalso
    rcases containsStr_append_cases hB with h1 | h1 | ⟨t₁, t₂, a₁, h2, h3, h4, h5, h6⟩
    · rw [ha] at h1; exact Bool.false_ne_true h1
    · rw [hb] at h1; exact Bool.false_ne_true h1
    · have hk : t₁.length < t.length := by
        rw [h2, List.length_append]
        have h7 : 0 < t₂.length := List.length_pos.mpr h4
        omega
      have hk0 : ¬ (t₁.length = 0) := by
        simpa [List.length_eq_zero] using h3
      have hdrop : t.drop t₁.length = t₂ := by
        rw [h2]; exact List.drop_left t₁ t₂
      have hall := (List.all_eq_true.mp hn) t₁.length (List.mem_range.mpr hk)
      rw [hdrop] at hall
      simp [hk0, h6] at hall

theorem examplesSection_nil : examplesSection [] = [] := rfl

theorem mistakesSection_nil : mistakesSection [] = [] := rfl

/-! ## C5 and C6: the Benchmark Identity Deriver -/

theorem extract_eq_spec (instructions : Str) :
    extract_benchmark_name instructions = benchmarkIdentitySpec instructions := by
  unfold extract_benchmark_name benchmarkIdentitySpec qualifyingTokens
  have hfil :
      ((pySplit (pyLower instructions)).take 20).filter
          (fun w => !stopWords.contains w && decide (w.length > 2)) =
      ((pySplit (pyLower instructions)).take 20).filter
          (fun w => decide (w ∉ stopWords) && decide (2 < w.length)) := by
    apply List.filter_congr
    intro w _
    have hc : stopWords.contains w = decide (w ∈ stopWords) := by
      by_cases h : w ∈ stopWords
      · simp [h, List.elem_eq_true_of_mem h]
      · simp [h]
    rw [hc]
    simp [decide_not]
  rw [hfil]
  by_cases h : ((pySplit (pyLower instructions)).take 20).filter
      (fun w => decide (w ∉ stopWords) && decide (2 < w.length)) = []
  · simp [h]
  · simp [h, List.isEmpty_iff]

/-- C5: `extract_benchmark_name` computes exactly the specified pipeline
(lowercase, whitespace-split, first 20 tokens, stop-word and length-≤2
filter, first 3 survivors joined by `_`, sentinel `"general"` when none
survive); the joined tokens are drawn from the input tokens in original
order, at least 3 qualifying tokens give exactly 3 underscore-joined
tokens, zero give the sentinel, and the output is always non-empty. -/
theorem c5_benchmark_identity (instructions : Str) :
    extract_benchmark_name instructions = benchmarkIdentitySpec instructions ∧
    ((qualifyingTokens instructions).take 3).Sublist (pySplit (pyLower instructions)) ∧
    (3 ≤ (qualifyingTokens instructions).length →
      ∃ w1 w2 w3, (qualifyingTokens instructions).take 3 = [w1, w2, w3] ∧
        extract_benchmark_name instructions = w1 ++ str "_" ++ w2 ++ str "_" ++ w3) ∧
    (qualifyingTokens instructions = [] →
      extract_benchmark_name instructions = str "general") ∧
    extract_benchmark_name instructions ≠ [] := by
  refine ⟨extract_eq_spec instructions, ?_, ?_, ?_, ?_⟩
  · exact ((List.take_sublist 3 _).trans (List.filter_sublist _)).trans
      (List.take_sublist 20 _)
  · intro h3
    obtain ⟨w1, w2, w3, rest, hq⟩ :
        ∃ w1 w2 w3 rest, qualifyingTokens instructions = w1 :: w2 :: w3 :: rest := by
      cases h : qualifyingTokens instructions with
      | nil => rw [h] at h3; simp at h3
      | cons a l1 =>
        cases l1 with
        | nil => rw [h] at h3; simp at h3
        | cons b l2 =>
          cases l2 with
          | nil => rw [h] at h3; simp at h3
          | cons c l3 => exact ⟨a, b, c, l3, rfl⟩
    refine ⟨w1, w2, w3, by rw [hq]; rfl, ?_⟩
    simp only [extract_benchmark_name]
    rw [hq]
    have h4 : joinSep (str "_") ((w1 :: w2 :: w3 :: rest).take 3) =
        w1 ++ str "_" ++ (w2 ++ str "_" ++ w3) := by
      have h5 : (w1 :: w2 :: w3 :: rest).take 3 = [w1, w2, w3] := rfl
      rw [h5]
      have h6 : joinSep (str "_") [w1, w2, w3] =
          w1 ++ str "_" ++ joinSep (str "_") [w2, w3] := rfl
      have h7 : joinSep (str "_") [w2, w3] = w2 ++ str "_" ++ w3 := rfl
      rw [h6, h7]
    simp only [List.isEmpty_cons, if_false, Bool.false_eq_true, ite_false, h4]
    simp [List.append_assoc]
  · intro h0
    simp only [extract_benchmark_name]
    rw [h0]
    rfl
  · simp only [extract_benchmark_name]
    cases hq : qualifyingTokens instructions with
    | nil => simp [str]
    | cons w l =>
      have hw : w ≠ [] := by
        have hmem : w ∈ qualifyingTokens instructions := by
          rw [hq]; exact List.mem_cons_self w l
        have h2 := (List.mem_filter.mp hmem).2
        have hlen : 2 < w.length := by
          have := (Bool.and_eq_true _ _).mp h2 |>.2
          simpa using this
        intro hnil
        rw [hnil] at hlen
        simp at hlen
      cases l with
      | nil => simpa [joinSep, List.take] using hw
      | cons y ys =>
        cases ys with
        | nil =>
          simp only [List.isEmpty_cons, Bool.false_eq_true, if_false]
          have h5 : (w :: [y]).take 3 = [w, y] := rfl
          rw [h5]
          have h6 : joinSep (str "_") [w, y] = w ++ str "_" ++ y := rfl
          rw [h6]
          simp [List.append_eq_nil, hw]
        | cons z zs =>
          simp only [List.isEmpty_cons, Bool.false_eq_true, if_false]
          have h5 : (w :: y :: z :: zs).take 3 = [w, y, z] := rfl
          rw [h5]
          have h6 : joinSep (str "_") [w, y, z] =
              w ++ str "_" ++ (y ++ str "_" ++ z) := by
            have h7 : joinSep (str "_") [w, y, z] =
                w ++ str "_" ++ joinSep (str "_") [y, z] := rfl
            have h8 : joinSep (str "_") [y, z] = y ++ str "_" ++ z := rfl
            rw [h7, h8]
          rw [h6]
          simp [List.append_eq_nil, hw]

/-- Witness for C5: the two conditional parts of `c5_benchmark_identity`
discharged at concrete inputs — the end-to-end instruction string (which
has at least 3 qualifying tokens) and an all-stop-word string (which has
none). -/
theorem c5_benchmark_identity_witness :
    (3 ≤ (qualifyingTokens cInstr).length ∧
      ∃ w1 w2 w3, (qualifyingTokens cInstr).take 3 = [w1, w2, w3] ∧
        extract_benchmark_name cInstr = w1 ++ str "_" ++ w2 ++ str "_" ++ w3) ∧
    (qualifyingTokens (str "we are to") = [] ∧
      extract_benchmark_name (str "we are to") = str "general") :=
  ⟨⟨by decide, (c5_benchmark_identity cInstr).2.2.1 (by decide)⟩,
   ⟨by decide, (c5_benchmark_identity (str "we are to")).2.2.2.1 (by decide)⟩⟩

/-- C6: counterexample to the claim as stated — on the scenario
instructions the deriver does NOT return `"analyzing_retail_e"`
(`"analyzing"` is in the stop-word set and hyphenated words are single
whitespace tokens). -/
theorem c6_counterexample :
    ¬ (extract_benchmark_name cInstr = str "analyzing_retail_e") := by decide

/-- C6 (amended): for the instruction string `"We are analyzing retail
e-commerce companies for market research"` the Benchmark Identity Deriver
returns `"retail_e-commerce_companies"`. -/
theorem c6_benchmark_name_value :
    extract_benchmark_name cInstr = str "retail_e-commerce_companies" := by decide

/-! ## C2: benchmark identity is stable between the generation run and
the feedback run -/

theorem toLower_of_ws {c : Char} (h : c.isWhitespace = true) :
    Char.toLower c = c := by
  have h2 : ((c = ' ' ∨ c = '\t') ∨ c = '\x0d') ∨ c = '\n' := by
    simpa [Char.isWhitespace] using h
  rcases h2 with ((rfl | rfl) | rfl) | rfl <;> decide

theorem pyLower_ws_id {l : Str} (h : ∀ c ∈ l, c.isWhitespace = true) :
    pyLower l = l := by
  induction l with
  | nil => rfl
  | cons c rest ih =>
    have h1 : pyLower (c :: rest) = Char.toLower c :: pyLower rest := rfl
    rw [h1, toLower_of_ws (h c (List.mem_cons_self c rest)),
      ih fun d hd => h d (List.mem_cons_of_mem c hd)]

theorem pySplitAux_all_ws {m : Str} (h : ∀ c ∈ m, c.isWhitespace = true) :
    ∀ acc, pySplitAux m acc = if acc.isEmpty then [] else [acc.reverse] := by
  induction m with
  | nil => intro acc; rfl
  | cons c rest ih =>
    intro acc
    have hc : c.isWhitespace = true := h c (List.mem_cons_self c rest)
    have ihr := ih (fun d hd => h d (List.mem_cons_of_mem c hd)) []
    simp only [pySplitAux, hc, if_true]
    cases hacc : acc.isEmpty with
    | true => simpa using ihr
    | false => simp [ihr]

theorem pySplitAux_append_ws {m : Str} (h : ∀ c ∈ m, c.isWhitespace = true) :
    ∀ (s acc : Str), pySplitAux (s ++ m) acc = pySplitAux s acc := by
  intro s
  induction s with
  | nil =>
    intro acc
    rw [List.nil_append, pySplitAux_all_ws h acc]
    rfl
  | cons c rest ih =>
    intro acc
    rw [List.cons_append]
    simp only [pySplitAux]
    cases hc : c.isWhitespace with
    | true => simp [ih]
    | false => simp [ih]

theorem pySplitAux_ws_lead {m : Str} (h : ∀ c ∈ m, c.isWhitespace = true) :
    ∀ u : Str, pySplitAux (m ++ u) [] = pySplitAux u [] := by
  induction m with
  | nil => intro u; rfl
  | cons c rest ih =>
    intro u
    have hc : c.isWhitespace = true := h c (List.mem_cons_self c rest)
    rw [List.cons_append]
    simp only [pySplitAux, hc, if_true, List.isEmpty_nil, if_true]
    exact ih (fun d hd => h d (List.mem_cons_of_mem c hd)) u

theorem pySplit_lower_strip (s : Str) :
    pySplit (pyLower (pyStrip s)) = pySplit (pyLower s) := by
  have hdecomp : s = s.takeWhile Char.isWhitespace ++
      (pyStrip s ++ ((s.dropWhile Char.isWhitespace).reverse.takeWhile
        Char.isWhitespace).reverse) := by
    conv_lhs => rw [← List.takeWhile_append_dropWhile (p := Char.isWhitespace) (l := s)]
    congr 1
    conv_lhs => rw [← List.reverse_reverse (List.dropWhile Char.isWhitespace s)]
    conv_lhs =>
      rw [← List.takeWhile_append_dropWhile (p := Char.isWhitespace)
        (l := (s.dropWhile Char.isWhitespace).reverse)]
    rw [List.reverse_append]
    rfl
  have hA : ∀ c ∈ s.takeWhile Char.isWhitespace, c.isWhitespace = true :=
    fun c hc => List.mem_takeWhile_imp hc
  have hB : ∀ c ∈ ((s.dropWhile Char.isWhitespace).reverse.takeWhile
      Char.isWhitespace).reverse, c.isWhitespace = true := by
    intro c hc
    exact List.mem_takeWhile_imp (List.mem_reverse.mp hc)
  conv_rhs => rw [hdecomp]
  unfold pyLower pySplit
  rw [List.map_append, List.map_append]
  rw [pySplitAux_ws_lead (by
    intro c hc
    obtain ⟨d, hd, rfl⟩ := List.mem_map.mp hc
    rw [toLower_of_ws (hA d hd)]
    exact hA d hd)]
  rw [pySplitAux_append_ws (by
    intro c hc
    obtain ⟨d, hd, rfl⟩ := List.mem_map.mp hc
    rw [toLower_of_ws (hB d hd)]
    exact hB d hd)]

theorem vcSubGo_id {s : Str} (h : containsStr (pyLower s) vcLit = false) :
    ∀ fuel, vcSubGo fuel s = s := by
  induction s with
  | nil => intro fuel; cases fuel <;> rfl
  | cons c rest ih =>
    intro fuel
    have h2 : strStarts (pyLower (c :: rest)) vcLit = false ∧
        containsStr (pyLower rest) vcLit = false := by
      have h3 : pyLower (c :: rest) = Char.toLower c :: pyLower rest := rfl
      rw [h3] at h ⊢
      simpa [containsStr, Bool.or_eq_false_iff] using h
    cases fuel with
    | zero => rfl
    | succ n =>
      simp only [vcSubGo, h2.1, Bool.false_eq_true, if_false]
      rw [ih h2.2 n]

/-- C2 (amended): for every instructions-file content that does not
contain the marker `"visual_check:"` (case-insensitively), the identity
computed by the generation run on the loaded instructions equals the
identity computed by the feedback run on the raw file content.  (With a
`VISUAL_CHECK:` line present the two runs can disagree, because only the
generation run strips that line: see `c2_counterexample`.) -/
theorem c2_identity_stable (content : Str)
    (h : containsStr (pyLower content) vcLit = false) :
    extract_benchmark_name (load_instructions_content content) =
      extract_benchmark_name_from_file content := by
  unfold load_instructions_content vcSub
  rw [vcSubGo_id h content.length]
  simp only [extract_benchmark_name, extract_benchmark_name_from_file,
    qualifyingTokens]
  rw [pySplit_lower_strip]

/-- C2: counterexample to the claim as stated — an instructions file with
a `VISUAL_CHECK:` line yields different identities in the generation run
(which removes the line) and the feedback run (which does not). -/
theorem c2_counterexample :
    ¬ (extract_benchmark_name (load_instructions_content c2content) =
        extract_benchmark_name_from_file c2content) := by decide

/-- Witness for C2 at a concrete marker-free file content. -/
theorem c2_identity_stable_witness :
    containsStr (pyLower c2plain) vcLit = false ∧
    extract_benchmark_name (load_instructions_content c2plain) =
      extract_benchmark_name_from_file c2plain :=
  ⟨by decide, c2_identity_stable c2plain (by decide)⟩

/-! ## C3 and C4: the feedback loop -/

theorem processCorrections_skip_middle (ctx : Str) (now : Nat → Str) (r : Row)
    (hr : pyStrip r.ai_description = pyStrip (r.correction.getD [])) :
    ∀ (xs ys : List Row) (i : Nat) (td : List TrainingExample)
      (fl : List FeedbackRecord) (n : Nat),
      processCorrections ctx now (xs ++ r :: ys) i td fl n =
        processCorrections ctx now (xs ++ ys) i td fl n := by
  intro xs
  induction xs with
  | nil =>
    intro ys i td fl n
    rw [List.nil_append, List.nil_append]
    simp only [processCorrections, hr, beq_self_eq_true, if_true]
  | cons x rest ih =>
    intro ys i td fl n
    rw [List.cons_append, List.cons_append]
    simp only [processCorrections]
    split
    · exact ih ys i td fl n
    · exact ih ys (i + 1) _ _ _

/-- C3: a correction row whose trimmed correction equals the trimmed AI
description contributes nothing: removing such a row from the sheet does
not change the result of `process_feedback` (so it adds no training
example and no feedback-log entry). -/
theorem c3_trim_equal_skipped (instructions : Str) (now : Nat → Str)
    (td0 : List TrainingExample) (fl0 : List FeedbackRecord)
    (pre post : List Row) (r : Row)
    (hr : pyStrip r.ai_description = pyStrip (r.correction.getD [])) :
    process_feedback instructions now td0 fl0 (pre ++ r :: post) =
      process_feedback instructions now td0 fl0 (pre ++ post) := by
  unfold process_feedback correctionRows
  rw [List.filter_append, List.filter_cons, List.filter_append]
  by_cases hc : isCorrectionRow r = true
  · rw [if_pos hc]
    exact processCorrections_skip_middle instructions now r hr _ _ 0 td0 fl0 0
  · rw [if_neg hc]

/-- Witness for C3: a concrete row with matching trimmed texts is dropped
from a one-row sheet. -/
theorem c3_trim_equal_skipped_witness :
    pyStrip cRowSkip.ai_description = pyStrip (cRowSkip.correction.getD []) ∧
    process_feedback (str "ctx") cNow [] [] [cRowSkip] =
      process_feedback (str "ctx") cNow [] [] [] :=
  ⟨by decide, c3_trim_equal_skipped (str "ctx") cNow [] [] [] [] cRowSkip (by decide)⟩

theorem processCorrections_append_only (ctx : Str) (now : Nat → Str) :
    ∀ (xs : List Row) (i : Nat) (td : List TrainingExample)
      (fl : List FeedbackRecord) (n : Nat),
      ∃ tdNew flNew,
        (processCorrections ctx now xs i td fl n).training = td ++ tdNew ∧
        (processCorrections ctx now xs i td fl n).flog = fl ++ flNew := by
  intro xs
  induction xs with
  | nil =>
    intro i td fl n
    exact ⟨[], [], by simp [processCorrections], by simp [processCorrections]⟩
  | cons x rest ih =>
    intro i td fl n
    simp only [processCorrections]
    split
    · exact ih i td fl n
    · set tr : TrainingExample :=
        { benchmark_context := ctx.take 200
          url := x.url
          html_snippet := x.html_snippet
          ai_description := x.ai_description
          human_description := x.correction.getD []
          timestamp := now i } with htr
      set fr : FeedbackRecord :=
        { benchmark_context := ctx.take 200
          url := x.url
          html_snippet := x.html_snippet
          ai_description := x.ai_description
          human_description := x.correction.getD []
          timestamp := now i
          discrepancy := mkDiscrepancy x.ai_description (x.correction.getD []) } with hfr
      by_cases hd : td.any (dupMatch x.url (ctx.take 200)) = true
      · rw [if_pos hd, if_pos hd]
        obtain ⟨a, b, h1, h2⟩ := ih (i + 1) td (fl ++ [fr]) n
        exact ⟨a, fr :: b, h1, by rw [h2, List.append_assoc]; rfl⟩
      · rw [if_neg hd, if_neg hd]
        obtain ⟨a, b, h1, h2⟩ := ih (i + 1) (td ++ [tr]) (fl ++ [fr]) (n + 1)
        exact ⟨tr :: a, fr :: b, by rw [h1, List.append_assoc]; rfl,
          by rw [h2, List.append_assoc]; rfl⟩

/-- C4: `process_feedback` is append-only — the resulting training store
is the input store with new records appended (nothing mutated or
deleted), and likewise for the feedback log. -/
theorem c4_append_only (instructions : Str) (now : Nat → Str)
    (td0 : List TrainingExample) (fl0 : List FeedbackRecord)
    (rows : List Row) :
    ∃ tdNew flNew,
      (process_feedback instructions now td0 fl0 rows).training = td0 ++ tdNew ∧
      (process_feedback instructions now td0 fl0 rows).flog = fl0 ++ flNew :=
  processCorrections_append_only instructions now (correctionRows rows) 0 td0 fl0 0

/-! ## C1: deduplication by (url, benchmark_context) -/

theorem processCorrections_cons (ctx : Str) (now : Nat → Str) (r : Row)
    (rest : List Row) (i : Nat) (td : List TrainingExample)
    (fl : List FeedbackRecord) (n : Nat)
    (hne : (pyStrip r.ai_description == pyStrip (r.correction.getD [])) = false) :
    processCorrections ctx now (r :: rest) i td fl n =
      processCorrections ctx now rest (i + 1)
        (if td.any (dupMatch r.url (ctx.take 200)) then td
         else td ++ [{ benchmark_context := ctx.take 200, url := r.url,
                       html_snippet := r.html_snippet,
                       ai_description := r.ai_description,
                       human_description := r.correction.getD [],
                       timestamp := now i }])
        (fl ++ [{ benchmark_context := ctx.take 200, url := r.url,
                  html_snippet := r.html_snippet,
                  ai_description := r.ai_description,
                  human_description := r.correction.getD [],
                  timestamp := now i,
                  discrepancy := mkDiscrepancy r.ai_description (r.correction.getD []) }])
        (if td.any (dupMatch r.url (ctx.take 200)) then n else n + 1) := by
  simp only [processCorrections, hne, Bool.false_eq_true, if_false]

/-- C1: two correction rows for the same URL under the same instructions
(hence the same 200-character benchmark context), each with a correction
differing from its AI description, processed against a store holding no
example for that (url, context) pair — in one run or in two successive
runs — leave exactly one matching training example in the store while
appending two feedback-log records. -/
theorem c1_dedup (instr : Str) (now1 now2 : Nat → Str)
    (td0 : List TrainingExample) (fl0 : List FeedbackRecord) (r1 r2 : Row)
    (h1c : isCorrectionRow r1 = true) (h2c : isCorrectionRow r2 = true)
    (hu : r2.url = r1.url)
    (h1d : ¬ pyStrip r1.ai_description = pyStrip (r1.correction.getD []))
    (h2d : ¬ pyStrip r2.ai_description = pyStrip (r2.correction.getD []))
    (h0 : td0.countP (dupMatch r1.url (instr.take 200)) = 0) :
    ((process_feedback instr now1 td0 fl0 [r1, r2]).training.countP
        (dupMatch r1.url (instr.take 200)) = 1 ∧
      (process_feedback instr now1 td0 fl0 [r1, r2]).flog.length =
        fl0.length + 2) ∧
    ((process_feedback instr now2
        (process_feedback instr now1 td0 fl0 [r1]).training
        (process_feedback instr now1 td0 fl0 [r1]).flog [r2]).training.countP
        (dupMatch r1.url (instr.take 200)) = 1 ∧
      (process_feedback instr now2
        (process_feedback instr now1 td0 fl0 [r1]).training
        (process_feedback instr now1 td0 fl0 [r1]).flog [r2]).flog.length =
        fl0.length + 2) := by
  have hskip1 : (pyStrip r1.ai_description == pyStrip (r1.correction.getD [])) = false := by
    rw [beq_eq_false_iff_ne]; exact h1d
  have hskip2 : (pyStrip r2.ai_description == pyStrip (r2.correction.getD [])) = false := by
    rw [beq_eq_false_iff_ne]; exact h2d
  have hany0 : td0.any (dupMatch r1.url (instr.take 200)) = false := by
    rw [List.any_eq_false]
    intro x hx
    exact (List.countP_eq_zero.mp h0) x hx
  have hrows2 : correctionRows [r1, r2] = [r1, r2] := by
    simp [correctionRows, List.filter, h1c, h2c]
  have hrows1 : correctionRows [r1] = [r1] := by
    simp [correctionRows, List.filter, h1c]
  have hrows1b : correctionRows [r2] = [r2] := by
    simp [correctionRows, List.filter, h2c]
  have hdup : ∀ ts : Str,
      (td0 ++ [{ benchmark_context := instr.take 200, url := r1.url,
                 html_snippet := r1.html_snippet,
                 ai_description := r1.ai_description,
                 human_description := r1.correction.getD [],
                 timestamp := ts }] : List TrainingExample).any
        (dupMatch r1.url (instr.take 200)) = true := by
    intro ts
    rw [List.any_append]
    simp [dupMatch]
  constructor
  · unfold process_feedback
    rw [hrows2]
    rw [processCorrections_cons _ _ _ _ _ _ _ _ hskip1]
    simp only [hany0, Bool.false_eq_true, if_false]
    rw [processCorrections_cons _ _ _ _ _ _ _ _ hskip2]
    rw [hu]
    simp only [hdup (now1 0), if_true]
    simp only [processCorrections]
    constructor
    · rw [List.countP_append, h0]
      simp [List.countP_cons, dupMatch]
    · simp [List.length_append]
  · have hst1 : process_feedback instr now1 td0 fl0 [r1] =
        ⟨td0 ++ [⟨instr.take 200, r1.url, r1.html_snippet, r1.ai_description,
                  r1.correction.getD [], now1 0⟩],
         fl0 ++ [⟨instr.take 200, r1.url, r1.html_snippet, r1.ai_description,
                  r1.correction.getD [], now1 0,
                  mkDiscrepancy r1.ai_description (r1.correction.getD [])⟩],
         1⟩ := by
      unfold process_feedback
      rw [hrows1]
      rw [processCorrections_cons _ _ _ _ _ _ _ _ hskip1]
      simp only [hany0, Bool.false_eq_true, if_false]
      simp only [processCorrections]
    rw [hst1]
    unfold process_feedback
    rw [hrows1b]
    rw [processCorrections_cons _ _ _ _ _ _ _ _ hskip2]
    rw [hu]
    simp only [hdup (now1 0), if_true]
    simp only [processCorrections]
    constructor
    · rw [List.countP_append, h0]
      simp [List.countP_cons, dupMatch]
    · simp [List.length_append]

/-- Witness for C1 at concrete rows, instructions and empty stores. -/
theorem c1_dedup_witness :
    ((process_feedback (str "Retail study") cNow [] [] [cRow1, cRow2]).training.countP
        (dupMatch cRow1.url ((str "Retail study").take 200)) = 1 ∧
      (process_feedback (str "Retail study") cNow [] [] [cRow1, cRow2]).flog.length = 2) ∧
    ((process_feedback (str "Retail study") cNow
        (process_feedback (str "Retail study") cNow [] [] [cRow1]).training
        (process_feedback (str "Retail study") cNow [] [] [cRow1]).flog [cRow2]).training.countP
        (dupMatch cRow1.url ((str "Retail study").take 200)) = 1 ∧
      (process_feedback (str "Retail study") cNow
        (process_feedback (str "Retail study") cNow [] [] [cRow1]).training
        (process_feedback (str "Retail study") cNow [] [] [cRow1]).flog [cRow2]).flog.length = 2) :=
  c1_dedup (str "Retail study") cNow cNow [] [] cRow1 cRow2
    (by decide) (by decide) (by decide) (by decide) (by decide) (by decide)

/-! ## C9: shopping-cart detection short-circuits on the first pattern -/

/-- C9: a page with an element whose class is `"add-to-cart-btn"` and no
id or icon matches for any cart pattern yields `has_shopping_cart = true`
and exactly one cart note, for the first matching pattern `"cart"` of the
ordered pattern list (the scan short-circuits rather than recording every
matching pattern). -/
theorem c9_cart_detection (pg : Page) (vc : Str) (e0 : Element)
    (he : e0 ∈ pg.elements) (hcls : e0.classAttr = some (str "add-to-cart-btn"))
    (hid : ∀ p ∈ cartPatterns, ∀ e ∈ pg.elements, idMatches p e = false)
    (hicon : ∀ p ∈ cartPatterns, ∀ e ∈ pg.elements, iconMatches p e = false) :
    (extract_ui_signals pg vc).has_shopping_cart = true ∧
    cartScanGo pg.elements cartPatterns = (true, [str "cart-indicator: cart"]) ∧
    (extract_ui_signals pg vc).detected_elements =
      str "cart-indicator: cart" :: (jobScanGo pg jobPatterns).2 := by
  have hm : classMatches (str "cart") e0 = true := by
    unfold classMatches
    rw [hcls]
    decide
  have hany : pg.elements.any (classMatches (str "cart")) = true := by
    rw [List.any_eq_true]
    exact ⟨e0, he, hm⟩
  have hscan : cartScanGo pg.elements cartPatterns =
      (true, [str "cart-indicator: cart"]) := by
    simp only [cartPatterns, cartScanGo, hany, if_true]
    decide
  refine ⟨?_, hscan, ?_⟩
  · simp only [extract_ui_signals]
    rw [hscan]
  · simp only [extract_ui_signals]
    rw [hscan]
    rfl

/-- Witness for C9 at a one-element page. -/
theorem c9_cart_detection_witness :
    (extract_ui_signals c9PageEx []).has_shopping_cart = true ∧
    cartScanGo c9PageEx.elements cartPatterns = (true, [str "cart-indicator: cart"]) ∧
    (extract_ui_signals c9PageEx []).detected_elements =
      str "cart-indicator: cart" :: (jobScanGo c9PageEx jobPatterns).2 :=
  c9_cart_detection c9PageEx [] c9Elem (by decide) (by decide) (by decide) (by decide)

/-! ## C10: the failure sentinel and the retry selection -/

/-- C10: whenever the scraped data carries a (truthy) error or no model is
configured, `generate_ai_description` returns exactly the fixed sentinel
string `noWorkMsg` (independently of the model function, which is never
invoked), and `retry_failed` selects exactly the row indices whose
`AI_Description` equals that sentinel. -/
theorem c10_sentinel (m : Option (Str → Except Str Str)) (wd : WebsiteData)
    (ui : UISignals) (instructions visual_check : Str)
    (tr : List TrainingExample) (mp : List MistakePattern)
    (h : m = none ∨ errTruthy wd = true) :
    generate_ai_description m wd ui instructions visual_check tr mp = noWorkMsg ∧
    ∀ (rows : List OutRow) (i : Nat) (r : OutRow), rows[i]? = some r →
      (i ∈ failed_indices rows ↔
        r.ai_description =
          generate_ai_description m wd ui instructions visual_check tr mp) := by
  have hgen : generate_ai_description m wd ui instructions visual_check tr mp =
      noWorkMsg := by
    rcases h with rfl | herr
    · rfl
    · cases m with
      | none => rfl
      | some f => simp only [generate_ai_description, herr, if_true]
  refine ⟨hgen, ?_⟩
  intro rows i r hget
  rw [hgen]
  unfold failed_indices
  constructor
  · intro hi
    obtain ⟨⟨j, rr⟩, hmem, hj⟩ := List.mem_map.mp hi
    obtain ⟨henum, hp⟩ := List.mem_filter.mp hmem
    have hj2 : rows[j]? = some rr := List.mem_enum_iff_getElem?.mp henum
    obtain rfl : j = i := hj
    rw [hget] at hj2
    injection hj2 with hrr
    subst hrr
    simpa [beq_iff_eq] using hp
  · intro he
    apply List.mem_map.mpr
    refine ⟨(i, r), List.mem_filter.mpr
      ⟨List.mem_enum_iff_getElem?.mpr hget, ?_⟩, rfl⟩
    simpa [beq_iff_eq] using he

/-- Witness for C10: no model configured, an error-carrying scrape, and a
concrete two-row sheet where exactly the sentinel row is selected. -/
theorem c10_sentinel_witness :
    (generate_ai_description none cWdErr cUi0 [] [] [] [] = noWorkMsg ∧
      ∀ (rows : List OutRow) (i : Nat) (r : OutRow), rows[i]? = some r →
        (i ∈ failed_indices rows ↔
          r.ai_description = generate_ai_description none cWdErr cUi0 [] [] [] [])) ∧
    0 ∈ failed_indices cOutRows ∧ ¬ 1 ∈ failed_indices cOutRows := by
  have h := c10_sentinel none cWdErr cUi0 [] [] [] [] (Or.inl rfl)
  exact ⟨h, by decide, by decide⟩

/-! ## C8: navigation-link filtering in the signals section -/

/-- C8: counterexample to the claim as stated — 40 links with exactly 3
keyword matches overall, one of them past index 30: the signals section
does not contain that third link, because only the first 30 links are
scanned. -/
theorem c8_counterexample :
    c8NavBad.length = 40 ∧ (c8NavBad.filter hasRelevantKw).length = 3 ∧
    hasRelevantKw (str "contact") = true ∧
    containsStr (build_signals_section c8WdBad none) (str "contact") = false := by
  exact ⟨by decide, by decide, by decide, by decide⟩

/-- C8 (amended): for a 40-entry navigation list in which exactly 3 of
the first 30 entries contain a relevance keyword, the signals section is
exactly the navigation line listing those 3 links in order (entries
beyond the first 30 are never consulted). -/
theorem c8_nav_filter (nav : List Str) (tc : Str) (err : Option Str)
    (l1 l2 l3 : Str)
    (hlen : nav.length = 40)
    (hfil : (nav.take 30).filter hasRelevantKw = [l1, l2, l3]) :
    build_signals_section
      { text_content := tc, nav_links := nav, meta_description := [], error := err }
      none =
      navLead ++ l1 ++ str ", " ++ l2 ++ str ", " ++ l3 := by
  have hne : nav.isEmpty = false := by
    cases nav with
    | nil => simp at hlen
    | cons a l => rfl
  have hj : joinSep (str ", ") [l1, l2, l3] =
      l1 ++ str ", " ++ (l2 ++ str ", " ++ l3) := by
    have h7 : joinSep (str ", ") [l1, l2, l3] =
        l1 ++ str ", " ++ joinSep (str ", ") [l2, l3] := rfl
    have h8 : joinSep (str ", ") [l2, l3] = l2 ++ str ", " ++ l3 := rfl
    rw [h7, h8]
  simp only [build_signals_section, hne, Bool.not_false, if_true, hfil]
  simp [hj, List.append_assoc]
  rfl

/-- Witness for C8 at a concrete 40-entry list with its 3 matches in the
first 30 entries. -/
theorem c8_nav_filter_witness :
    c8NavGood.length = 40 ∧
    (c8NavGood.take 30).filter hasRelevantKw =
      [str "about", str "shop", str "contact"] ∧
    build_signals_section
      { text_content := [], nav_links := c8NavGood, meta_description := [],
        error := none } none =
      navLead ++ str "about" ++ str ", " ++ str "shop" ++ str ", " ++ str "contact" :=
  ⟨by decide, by decide,
   c8_nav_filter c8NavGood [] none (str "about") (str "shop") (str "contact")
     (by decide) (by decide)⟩

/-! ## C7: empty example and mistake lists leave no section headers -/

theorem noSpanRight_nil (t : Str) : noSpanRight [] t = true := by
  unfold noSpanRight
  rw [List.all_eq_true]
  intro k hk
  by_cases hk0 : k = 0
  · simp [hk0]
  · have hlt : k < t.length := List.mem_range.mp hk
    have hd : t.drop k ≠ [] := by
      intro hdrop
      have := congrArg List.length hdrop
      simp [List.length_drop] at this
      omega
    cases hde : t.drop k with
    | nil => exact absurd hde hd
    | cons c u => simp [hk0, strStarts, hde]

theorem s1_split :
    str "ROLE:\nYou are an expert business analyst specializing in company benchmarking studies.\n\nTHE MISSION (Instructions for this benchmark):\n" =
      str "ROLE:\nYou are an expert business analyst specializing in company benchmarking studies.\n\nTHE MISSION (Instructions for this benchmark):" ++ ['\n'] := rfl

theorem dot_split : str ".\n\n" = str ".\n" ++ ['\n'] := rfl

theorem s3_split :
    str "\n\nWEBSITE TEXT CONTENT:\n" = str "\n\nWEBSITE TEXT CONTENT:" ++ ['\n'] := rfl

theorem visualSection_no_needle (t visual_check : Str) (ui : Option UISignals)
    (htne : t ≠ []) (hnl : '\n' ∉ t)
    (h_vsreq : containsStr (str "\nVISUAL CHECK REQUESTED:\n") t = false)
    (h_det : containsStr detLead t = false)
    (hl_det : noSpanLeft detLead t = true)
    (hV : containsStr visual_check t = false)
    (hC : containsStr (uiCcr ui) t = false) :
    containsStr (visualSection visual_check ui) t = false := by
  have h2 : containsStr
      (str "\nVISUAL CHECK REQUESTED:\n" ++ visual_check ++ str "\n") t = false := by
    refine containsStr_append_cons hnl ?_ (containsStr_nil_of_ne t htne)
    exact containsStr_append_endNl
      ⟨str "\nVISUAL CHECK REQUESTED:", rfl⟩ hnl h_vsreq hV
  cases ui with
  | none =>
    unfold visualSection
    split
    · exact containsStr_append_endNl ⟨_, rfl⟩ hnl h2 (containsStr_nil_of_ne t htne)
    · exact containsStr_nil_of_ne t htne
  | some u =>
    unfold visualSection
    split
    · refine containsStr_append_endNl ⟨_, rfl⟩ hnl h2 ?_
      show containsStr (if !u.custom_check_result.isEmpty then
          str "Detection Result: " ++ u.custom_check_result ++ str "\n" else []) t = false
      split
      · refine containsStr_append_cons hnl ?_ (containsStr_nil_of_ne t htne)
        exact containsStr_append_noSpan hl_det h_det hC
      · exact containsStr_nil_of_ne t htne
    · exact containsStr_nil_of_ne t htne

theorem ite_isEmpty_contains {l : List Str} {t : Str} (htne : t ≠ [])
    (h : containsStr (joinSep (str "\n") l) t = false) :
    containsStr (if l.isEmpty then [] else joinSep (str "\n") l) t = false := by
  split
  · exact containsStr_nil_of_ne t htne
  · exact h

theorem signals_no_needle (t : Str) (wd : WebsiteData) (ui : Option UISignals)
    (htne : t ≠ []) (hnl : '\n' ∉ t) (hcm : ',' ∉ t)
    (hsp : strStarts t (str " ") = false)
    (h_nav : containsStr navLead t = false) (hl_nav : noSpanLeft navLead t = true)
    (h_meta : containsStr metaLead t = false) (hl_meta : noSpanLeft metaLead t = true)
    (h_ui : containsStr uiLead t = false) (hl_ui : noSpanLeft uiLead t = true)
    (h_ret : containsStr retailLine t = false)
    (h_car : containsStr careersLine t = false)
    (hM : containsStr wd.meta_description t = false)
    (hN : ∀ l ∈ wd.nav_links, containsStr l t = false)
    (hD : ∀ e ∈ uiDet ui, containsStr e t = false) :
    containsStr (build_signals_section wd ui) t = false := by
  simp only [build_signals_section]
  apply ite_isEmpty_contains htne
  apply containsStr_joinSep_nl htne hnl
  intro s hs
  rcases List.mem_append.mp hs with hs1 | hs2
  · rcases List.mem_append.mp hs1 with hsa | hsb
    · split at hsa
      · split at hsa
        · simp only [List.mem_singleton] at hsa
          subst hsa
          refine containsStr_append_noSpan hl_nav h_nav
            (containsStr_joinSep_comma htne hcm hsp _ ?_)
          intro l hl
          exact hN l (List.mem_of_mem_take
            (List.mem_filter.mp (List.mem_of_mem_take hl)).1)
        · simp at hsa
      · simp at hsa
    · split at hsb
      · simp only [List.mem_singleton] at hsb
        subst hsb
        exact containsStr_append_noSpan hl_meta h_meta hM
      · simp at hsb
  · cases ui with
    | none => simp at hs2
    | some u =>
      rcases List.mem_append.mp hs2 with hsa | hsb
      · rcases List.mem_append.mp hsa with hsc | hsd
        · split at hsc
          · simp only [List.mem_singleton] at hsc
            subst hsc
            exact h_ret
          · simp at hsc
        · split at hsd
          · simp only [List.mem_singleton] at hsd
            subst hsd
            exact h_car
          · simp at hsd
      · split at hsb
        · simp only [List.mem_singleton] at hsb
          subst hsb
          refine containsStr_append_noSpan hl_ui h_ui
            (containsStr_joinSep_comma htne hcm hsp _ ?_)
          intro e he
          exact hD e (List.mem_of_mem_take he)
        · simp at hsb

theorem build_prompt_empty_no_needle (t : Str) (wd : WebsiteData)
    (instructions visual_check : Str) (ui : Option UISignals)
    (htne : t ≠ []) (hnl : '\n' ∉ t) (hcm : ',' ∉ t) (hap : apos ∉ t)
    (hsp : strStarts t (str " ") = false)
    (h_s1 : containsStr (str "ROLE:\nYou are an expert business analyst specializing in company benchmarking studies.\n\nTHE MISSION (Instructions for this benchmark):\n") t = false)
    (h_vsreq : containsStr (str "\nVISUAL CHECK REQUESTED:\n") t = false)
    (h_det : containsStr detLead t = false)
    (hl_det : noSpanLeft detLead t = true)
    (h_s2 : containsStr (str "\n--------------------------------------------------\n\nCURRENT TASK:\nAnalyze the website content below and strictly follow ") t = false)
    (hr_s2 : noSpanRight (str "\n--------------------------------------------------\n\nCURRENT TASK:\nAnalyze the website content below and strictly follow ") t = true)
    (h_tm : containsStr (str "The Mission") t = false)
    (hr_tm : noSpanRight (str "The Mission") t = true)
    (h_dot : containsStr (str ".\n\n") t = false)
    (hr_dot : noSpanRight (str ".\n\n") t = true)
    (h_s3 : containsStr (str "\n\nWEBSITE TEXT CONTENT:\n") t = false)
    (hr_s3 : noSpanRight (str "\n\nWEBSITE TEXT CONTENT:\n") t = true)
    (h_s4 : containsStr (str "\n\nOUTPUT:\nProvide your analysis following the mission instructions exactly.\n") t = false)
    (hr_s4 : noSpanRight (str "\n\nOUTPUT:\nProvide your analysis following the mission instructions exactly.\n") t = true)
    (h_nav : containsStr navLead t = false) (hl_nav : noSpanLeft navLead t = true)
    (h_meta : containsStr metaLead t = false) (hl_meta : noSpanLeft metaLead t = true)
    (h_ui : containsStr uiLead t = false) (hl_ui : noSpanLeft uiLead t = true)
    (h_ret : containsStr retailLine t = false)
    (h_car : containsStr careersLine t = false)
    (hI : containsStr instructions t = false)
    (hV : containsStr visual_check t = false)
    (hT : containsStr wd.text_content t = false)
    (hM : containsStr wd.meta_description t = false)
    (hN : ∀ l ∈ wd.nav_links, containsStr l t = false)
    (hC : containsStr (uiCcr ui) t = false)
    (hD : ∀ e ∈ uiDet ui, containsStr e t = false) :
    containsStr (build_prompt wd instructions visual_check [] [] ui) t = false := by
  have hvs : containsStr (visualSection visual_check ui) t = false :=
    visualSection_no_needle t visual_check ui htne hnl h_vsreq h_det hl_det hV hC
  have hss : containsStr (build_signals_section wd ui) t = false :=
    signals_no_needle t wd ui htne hnl hcm hsp h_nav hl_nav h_meta hl_meta
      h_ui hl_ui h_ret h_car hM hN hD
  unfold build_prompt
  refine containsStr_append_noSpanRight hr_s4 ?_ h_s4
  refine containsStr_append_endNl ⟨_, by rw [s3_split, ← List.append_assoc]⟩ hnl ?_ hT
  refine containsStr_append_noSpanRight hr_s3 ?_ h_s3
  refine containsStr_append_endNl ⟨_, by rw [dot_split, ← List.append_assoc]⟩ hnl ?_ hss
  refine containsStr_append_noSpanRight hr_dot ?_ h_dot
  refine containsStr_append_cons hap ?_ (containsStr_nil_of_ne t htne)
  refine containsStr_append_noSpanRight hr_tm ?_ h_tm
  refine containsStr_append_cons hap ?_ (containsStr_nil_of_ne t htne)
  refine containsStr_append_noSpanRight hr_s2 ?_ h_s2
  refine containsStr_append_noSpanRight (noSpanRight_nil t) ?_
    (containsStr_nil_of_ne t htne)
  refine containsStr_append_cons hnl ?_ (containsStr_nil_of_ne t htne)
  refine containsStr_append_noSpanRight (noSpanRight_nil t) ?_
    (containsStr_nil_of_ne t htne)
  refine containsStr_append_cons hnl ?_ (containsStr_nil_of_ne t htne)
  refine containsStr_append_endNl ⟨_, rfl⟩ hnl ?_ hvs
  refine containsStr_append_cons hnl ?_ (containsStr_nil_of_ne t htne)
  refine containsStr_append_endNl ⟨_, s1_split⟩ hnl ?_ hI
  exact h_s1

/-- C7: counterexample to the claim as stated — it quantifies over all
website data and instructions, but instructions that themselves contain
the header text are copied verbatim into the prompt, which then contains
`"REFERENCE EXAMPLES"` even though both lists are empty. -/
theorem c7_counterexample :
    containsStr
      (build_prompt cWdEmpty (str "REFERENCE EXAMPLES") [] [] [] none)
      (str "REFERENCE EXAMPLES") = true := by decide

/-- C7 (amended): with empty training-example and mistake-pattern lists
both list-backed sections collapse to the empty string, and — for every
website data, instructions, visual check and UI signals none of whose
string fields contains the header text — the assembled prompt contains
neither the `"REFERENCE EXAMPLES"` nor the `"COMMON MISTAKES"` header. -/
theorem c7_empty_sections (wd : WebsiteData) (instructions visual_check : Str)
    (ui : Option UISignals)
    (hfree : ∀ t ∈ c7Needles,
      containsStr instructions t = false ∧ containsStr visual_check t = false ∧
      containsStr wd.text_content t = false ∧
      containsStr wd.meta_description t = false ∧
      (∀ l ∈ wd.nav_links, containsStr l t = false) ∧
      containsStr (uiCcr ui) t = false ∧
      (∀ e ∈ uiDet ui, containsStr e t = false)) :
    examplesSection [] = [] ∧ mistakesSection [] = [] ∧
    ∀ t ∈ c7Needles,
      containsStr (build_prompt wd instructions visual_check [] [] ui) t = false := by
  refine ⟨rfl, rfl, ?_⟩
  intro t ht
  obtain ⟨hI, hV, hT, hM, hN, hC, hD⟩ := hfree t ht
  fin_cases ht
  · exact build_prompt_empty_no_needle _ wd instructions visual_check ui
      (by decide) (by decide) (by decide) (by decide) (by decide) (by decide)
      (by decide) (by decide) (by decide) (by decide) (by decide) (by decide)
      (by decide) (by decide) (by decide) (by decide) (by decide) (by decide)
      (by decide) (by decide) (by decide) (by decide) (by decide) (by decide)
      (by decide) (by decide) (by decide) hI hV hT hM hN hC hD
  · exact build_prompt_empty_no_needle _ wd instructions visual_check ui
      (by decide) (by decide) (by decide) (by decide) (by decide) (by decide)
      (by decide) (by decide) (by decide) (by decide) (by decide) (by decide)
      (by decide) (by decide) (by decide) (by decide) (by decide) (by decide)
      (by decide) (by decide) (by decide) (by decide) (by decide) (by decide)
      (by decide) (by decide) (by decide) hI hV hT hM hN hC hD

/-- Witness for C7 at concrete header-free inputs. -/
theorem c7_empty_sections_witness :
    examplesSection [] = [] ∧ mistakesSection [] = [] ∧
    ∀ t ∈ c7Needles,
      containsStr
        (build_prompt cWdEmpty (str "Describe the company") [] [] [] none)
        t = false :=
  c7_empty_sections cWdEmpty (str "Describe the company") [] none (by decide)
